import Mathlib

/-!
Shallow embedding of the reddit-stock-predictor pipeline.

Sources embedded here:
- scrape_posts.py: ticker extraction, the generic reference upsert, the post
  and comment upserts, and the per-subreddit driver of the main block.
- sentiment_organizer.py: the scoring selection queries POSTS_SQL and
  COMMENTS_SQL, and the daily aggregation statement AGG_SQL.
- scripts/ticker_verification.py: the feed fetch with retry, symbol
  normalization, equity-issue filtering and the registry build.

Modelling conventions: Python strings are lists of characters; Python None
is Option.none; Python sets are deduplicated lists; SQL tables are lists of
row structures together with a surrogate-id counter; machine timestamps are
integers (seconds since the epoch); SQL numerics are rationals.
-/

namespace RedditStock

/-! ### Ticker extraction (scrape_posts.py, TICKER_RE and extract_tickers) -/

/-- A character counted as a word character by the regex engine (letters,
digits, underscore), in the ASCII fragment the scraper works over. -/
def isWordChar (c : Char) : Bool :=
  c.isAlpha || c.isDigit || c == '_'

/-- Accumulator form of wordRuns: splits a text into its maximal runs of
word characters. -/
def wordRunsAux : List Char → List Char → List (List Char)
  | [], acc => if acc = [] then [] else [acc.reverse]
  | c :: rest, acc =>
    if isWordChar c then wordRunsAux rest (c :: acc)
    else if acc = [] then wordRunsAux rest []
    else acc.reverse :: wordRunsAux rest []

/-- The maximal word-character runs of a text, in order: exactly the
word-boundary delimited tokens. -/
def wordRuns (text : List Char) : List (List Char) :=
  wordRunsAux text []

/-- Whether one word-boundary token is matched by the pattern of TICKER_RE:
one to five uppercase ASCII letters. -/
def tickerToken (w : List Char) : Bool :=
  decide (1 ≤ w.length) && decide (w.length ≤ 5) && w.all Char.isUpper

/-- TICKER_RE.findall: the regex requires a word boundary on each side of a
run of one to five uppercase letters, so a match is exactly a maximal
word-character run that is entirely uppercase letters of length one to
five. -/
def TICKER_RE_findall (text : List Char) : List (List Char) :=
  (wordRuns text).filter tickerToken

/-- Python str.isalpha in the ASCII fragment: nonempty and all letters. -/
def pyIsAlpha (w : List Char) : Bool :=
  !w.isEmpty && w.all Char.isAlpha

/-- extract_tickers from scrape_posts.py. A None or empty text is falsy and
yields the empty set; otherwise the matches of TICKER_RE are filtered by
isalpha and collected into a set (here: a deduplicated list). -/
def extract_tickers (text : Option (List Char)) : List (List Char) :=
  match text with
  | none => []
  | some t =>
    if t = [] then []
    else ((TICKER_RE_findall t).filter pyIsAlpha).dedup

/-! ### Symbol registry (scripts/ticker_verification.py) -/

/-- Python str.strip: remove leading and trailing whitespace. -/
def pyStrip (s : List Char) : List Char :=
  ((s.dropWhile Char.isWhitespace).reverse.dropWhile Char.isWhitespace).reverse

/-- normalize_symbol from ticker_verification.py: strip, uppercase, then for
each separator in the fixed order full stop, hyphen, slash, keep only the
part before its first occurrence. -/
def normalize_symbol (sym : Option (List Char)) : List Char :=
  let s0 := (pyStrip (sym.getD [])).map Char.toUpper
  let s1 := s0.takeWhile (fun c => c ≠ '.')
  let s2 := s1.takeWhile (fun c => c ≠ '-')
  s2.takeWhile (fun c => c ≠ '/')

/-- One row of a reference feed as the builder reads it: the Symbol column
and the three exclusion flags. A missing column is none. -/
structure FeedRow where
  symbol : Option (List Char)
  etf : Option (List Char)
  testIssue : Option (List Char)
  nextShares : Option (List Char)
deriving DecidableEq

/-- Effective value of a flag column: a missing or empty value reads as the
single letter N, per row.get with default and the or-coercion. -/
def flagValue (f : Option (List Char)) : List Char :=
  match f with
  | none => ['N']
  | some v => if v = [] then ['N'] else v

/-- Whether a flag column reads as Y after uppercasing. -/
def flagIsY (f : Option (List Char)) : Bool :=
  (flagValue f).map Char.toUpper == ['Y']

/-- is_equity_issue from ticker_verification.py: rows flagged ETF, Test
Issue or NextShares are excluded. -/
def is_equity_issue (r : FeedRow) : Bool :=
  !flagIsY r.etf && !flagIsY r.testIssue && !flagIsY r.nextShares

/-- The acceptance test applied by build to a normalized symbol: between one
and five characters and all alphabetic. -/
def acceptSymbol (s : List Char) : Bool :=
  decide (1 ≤ s.length) && decide (s.length ≤ 5) && pyIsAlpha s

/-- The set of symbols collected by build: equity-eligible rows, normalized,
kept when the acceptance test passes. Sets become deduplicated lists. -/
def buildSymbolSet (rows : List FeedRow) : List (List Char) :=
  (((rows.filter is_equity_issue).map
      (fun r => normalize_symbol r.symbol)).filter acceptSymbol).dedup

/-- The data part of the output file written by build: the collected symbol
set, sorted ascending (code-point order, as Python sorted on strings). -/
def build (rows : List FeedRow) : List (List Char) :=
  List.insertionSort (· ≤ ·) (buildSymbolSet rows)

/-! ### Feed fetch with retry (scripts/ticker_verification.py, fetch) -/

/-- Split a list of characters at every occurrence of a separator. -/
def splitOnChar (sep : Char) : List Char → List (List Char)
  | [] => [[]]
  | c :: rest =>
    let r := splitOnChar sep rest
    if c = sep then [] :: r
    else
      match r with
      | [] => [[c]]
      | h :: t => (c :: h) :: t

/-- The footer marker discarded by fetch before parsing. -/
def FOOTER : List Char := "File Creation Time:".toList

/-- Drop the trailing footer line when the body is nonempty and its last
line starts with the footer marker. -/
def dropFooter (lines : List (List Char)) : List (List Char) :=
  match lines.getLast? with
  | some l => if FOOTER.isPrefixOf l then lines.dropLast else lines
  | none => lines

/-- The pipe-delimited DictReader of fetch at the granularity these claims
need: the first remaining line is the header; every nonempty later line
becomes a row of header fields zipped with its fields. No lines at all, or
a header with no data lines, parse to zero rows. -/
def parseRows (lines : List (List Char)) : List (List (List Char × List Char)) :=
  match dropFooter lines with
  | [] => []
  | header :: rest =>
    (rest.filter (fun l => !l.isEmpty)).map
      (fun l => (splitOnChar '|' header).zip (splitOnChar '|' l))

/-- One fetch attempt. The input models the transport: none is a network
error (URLError, HTTPError, TimeoutError) raised by urlopen, some lines is
a body split into lines. A body that parses to zero rows raises ValueError,
which the except clause treats exactly like a transport error: the attempt
result is none in both cases. -/
def attemptResult (resp : Option (List (List Char))) :
    Option (List (List (List Char × List Char))) :=
  match resp with
  | none => none
  | some lines =>
    let rows := parseRows lines
    if rows.isEmpty then none else some rows

/-- The retry loop of fetch, by recursion on the attempts left. The first
component is the parsed rows of the first successful attempt, or none when
every attempt failed (the terminal RuntimeError). The second component
records the back-off sleep durations 1 + attempt of the failed attempts in
order. -/
def fetchAux (resp : Nat → Option (List (List Char))) :
    Nat → Nat → Option (List (List (List Char × List Char))) × List Nat
  | 0, _ => (none, [])
  | rem + 1, attempt =>
    match attemptResult (resp attempt) with
    | some rows => (some rows, [])
    | none =>
      let r := fetchAux resp rem (attempt + 1)
      (r.1, (1 + attempt) :: r.2)

/-- fetch from ticker_verification.py with its fixed attempt count of three,
attempts numbered from one. -/
def fetch (resp : Nat → Option (List (List Char))) :
    Option (List (List (List Char × List Char))) × List Nat :=
  fetchAux resp 3 1

/-! ### Generic reference upsert (scrape_posts.py, upsert_ref) -/

/-- A reference table (subreddits, authors, tickers): rows of surrogate id
and unique-column value, plus the next surrogate id the store would assign. -/
structure RefTable (α : Type) where
  next_id : Nat
  rows : List (Nat × α)
deriving DecidableEq

/-- upsert_ref from scrape_posts.py: INSERT ... ON CONFLICT (col) DO UPDATE
SET col = EXCLUDED.col RETURNING id. On conflict the existing row keeps its
value (the update writes the same value back) and its id is returned; with
no conflict a fresh row is appended and its new id returned. The operation
never raises on a repeat. -/
def upsert_ref {α : Type} [DecidableEq α] (t : RefTable α) (v : α) :
    Nat × RefTable α :=
  match t.rows.find? (fun r => decide (r.2 = v)) with
  | some r => (r.1, t)
  | none => (t.next_id, ⟨t.next_id + 1, t.rows ++ [(t.next_id, v)]⟩)

/-! ### Post and comment upserts (scrape_posts.py) -/

/-- The fields of a source post record that upsert_post reads. Nullable
source fields are Options. -/
structure RawPost where
  id : List Char
  title : Option (List Char)
  selftext : Option (List Char)
  url : Option (List Char)
  permalink : Option (List Char)
  score : Option Int
  num_comments : Option Int
  created_utc : Int
deriving DecidableEq

/-- One row of the posts table. Text and numeric columns are Options so
that the absence of SQL null in what the code writes is provable rather
than built in. The raw_json column is modelled as the structured snapshot
of the source record that json.dumps serializes. -/
structure PostRow where
  id : Nat
  reddit_id : List Char
  subreddit_id : Nat
  author_id : Nat
  title : Option (List Char)
  selftext : Option (List Char)
  url : Option (List Char)
  permalink : Option (List Char)
  score : Option Int
  num_comments : Option Int
  created_utc : Int
  raw_json : RawPost
deriving DecidableEq

/-- The posts table with its surrogate-id counter. -/
structure PostsTable where
  next_id : Nat
  rows : List PostRow
deriving DecidableEq

/-- The row bound by the VALUES list of upsert_post: null text fields are
coerced to the empty string and null numerics to zero by the or-coercions
in the execute call. -/
def newPostRow (pid : Nat) (p : RawPost) (subreddit_id author_id : Nat) :
    PostRow where
  id := pid
  reddit_id := p.id
  subreddit_id := subreddit_id
  author_id := author_id
  title := some (p.title.getD [])
  selftext := some (p.selftext.getD [])
  url := some (p.url.getD [])
  permalink := some (p.permalink.getD [])
  score := some (p.score.getD 0)
  num_comments := some (p.num_comments.getD 0)
  created_utc := p.created_utc
  raw_json := p

/-- upsert_post from scrape_posts.py: INSERT ... ON CONFLICT (reddit_id) DO
UPDATE SET score = EXCLUDED.score, num_comments = EXCLUDED.num_comments
RETURNING id. On conflict only score and num_comments are refreshed on the
matching row; otherwise the fresh row is appended. -/
def upsert_post (t : PostsTable) (p : RawPost) (subreddit_id author_id : Nat) :
    Nat × PostsTable :=
  match t.rows.find? (fun r => decide (r.reddit_id = p.id)) with
  | some r =>
    (r.id,
      ⟨t.next_id,
        t.rows.map (fun q =>
          if q.reddit_id = p.id then
            { q with
              score := some (p.score.getD 0)
              num_comments := some (p.num_comments.getD 0) }
          else q)⟩)
  | none =>
    (t.next_id,
      ⟨t.next_id + 1, t.rows ++ [newPostRow t.next_id p subreddit_id author_id]⟩)

/-- The fields of a source comment record that upsert_comment reads. -/
structure RawComment where
  id : List Char
  body : Option (List Char)
  score : Option Int
  created_utc : Int
deriving DecidableEq

/-- One row of the comments table, columns as in upsert_comment. -/
structure CommentRow where
  id : Nat
  reddit_id : List Char
  post_id : Nat
  author_id : Nat
  body : Option (List Char)
  score : Option Int
  created_utc : Int
  parent_comment_id : Option Nat
  raw_json : RawComment
deriving DecidableEq

/-- The comments table with its surrogate-id counter. -/
structure CommentsTable where
  next_id : Nat
  rows : List CommentRow
deriving DecidableEq

/-- The row bound by the VALUES list of upsert_comment, with the same
or-coercions as for posts. -/
def newCommentRow (cid : Nat) (c : RawComment) (post_id author_id : Nat)
    (parent : Option Nat) : CommentRow where
  id := cid
  reddit_id := c.id
  post_id := post_id
  author_id := author_id
  body := some (c.body.getD [])
  score := some (c.score.getD 0)
  created_utc := c.created_utc
  parent_comment_id := parent
  raw_json := c

/-- upsert_comment from scrape_posts.py: on conflict only score is
refreshed. -/
def upsert_comment (t : CommentsTable) (c : RawComment)
    (post_id author_id : Nat) (parent : Option Nat) : Nat × CommentsTable :=
  match t.rows.find? (fun r => decide (r.reddit_id = c.id)) with
  | some r =>
    (r.id,
      ⟨t.next_id,
        t.rows.map (fun q =>
          if q.reddit_id = c.id then { q with score := some (c.score.getD 0) }
          else q)⟩)
  | none =>
    (t.next_id,
      ⟨t.next_id + 1,
        t.rows ++ [newCommentRow t.next_id c post_id author_id parent]⟩)

/-- The text and numeric columns written by upsert_post, tested non-null. -/
def postRowNonNull (r : PostRow) : Bool :=
  r.title.isSome && r.selftext.isSome && r.url.isSome && r.permalink.isSome &&
    r.score.isSome && r.num_comments.isSome

/-- The text and numeric columns written by upsert_comment, tested non-null. -/
def commentRowNonNull (r : CommentRow) : Bool :=
  r.body.isSome && r.score.isSome

/-! ### Scoring selection (sentiment_organizer.py, POSTS_SQL, COMMENTS_SQL,
fetch_for_scoring) -/

/-- The columns of a posts row that POSTS_SQL reads. -/
structure ScorePost where
  id : Nat
  title : Option (List Char)
  selftext : Option (List Char)
  score : Int
  created_utc : Int
deriving DecidableEq

/-- The columns of a comments row that COMMENTS_SQL reads. -/
structure ScoreComment where
  id : Nat
  body : Option (List Char)
  score : Int
  created_utc : Int
deriving DecidableEq

/-- The LEFT JOIN of one entity row against the id column of its sentiment
table: every matching sentiment key, or a single null partner when there is
none. -/
def leftJoinIds (sentIds : List Nat) (i : Nat) : List (Option Nat) :=
  match sentIds.filter (fun j => decide (j = i)) with
  | [] => [none]
  | l => l.map some

/-- The shared selection of POSTS_SQL and COMMENTS_SQL over any entity
table: LEFT JOIN against the sentiment keys, then the WHERE clause keeps a
joined row when rescore is true and the entity is recent enough, or when
rescore is false and the sentiment partner is null. The result lists the
surviving entity rows. -/
def fetchBase {α : Type} (entities : List α) (eid : α → Nat)
    (created : α → Int) (sentIds : List Nat) (rescore : Bool) (since : Int) :
    List α :=
  entities.flatMap (fun p =>
    ((leftJoinIds sentIds (eid p)).filter (fun s =>
      (rescore && decide (since ≤ created p)) || (!rescore && s.isNone))).map
      (fun _ => p))

/-- The cutoff computed by fetch_for_scoring: now minus since_days days. -/
def sinceCutoff (now : Int) (since_days : Nat) : Int :=
  now - (since_days : Int) * 86400

/-- fetch_for_scoring over the posts table, before column projection. -/
def postsForScoring (posts : List ScorePost) (sentIds : List Nat)
    (rescore : Bool) (now : Int) (since_days : Nat) : List ScorePost :=
  fetchBase posts (fun p => p.id) (fun p => p.created_utc) sentIds rescore
    (sinceCutoff now since_days)

/-- fetch_for_scoring over the comments table, before column projection. -/
def commentsForScoring (comments : List ScoreComment) (sentIds : List Nat)
    (rescore : Bool) (now : Int) (since_days : Nat) : List ScoreComment :=
  fetchBase comments (fun c => c.id) (fun c => c.created_utc) sentIds rescore
    (sinceCutoff now since_days)

/-- The projected columns of one selected row: id, score, created_utc and
the text (for posts the COALESCE concatenation of title and selftext). -/
structure SelRow where
  id : Nat
  score : Int
  created_utc : Int
  text : List Char
deriving DecidableEq

/-- Column projection of POSTS_SQL. -/
def postSelRow (p : ScorePost) : SelRow where
  id := p.id
  score := p.score
  created_utc := p.created_utc
  text := p.title.getD [] ++ [' '] ++ p.selftext.getD []

/-- Column projection of COMMENTS_SQL. -/
def commentSelRow (c : ScoreComment) : SelRow where
  id := c.id
  score := c.score
  created_utc := c.created_utc
  text := c.body.getD []

/-- The full result of fetch_for_scoring on posts. -/
def fetch_for_scoring_posts (posts : List ScorePost) (sentIds : List Nat)
    (rescore : Bool) (now : Int) (since_days : Nat) : List SelRow :=
  (postsForScoring posts sentIds rescore now since_days).map postSelRow

/-- The full result of fetch_for_scoring on comments. -/
def fetch_for_scoring_comments (comments : List ScoreComment)
    (sentIds : List Nat) (rescore : Bool) (now : Int) (since_days : Nat) :
    List SelRow :=
  (commentsForScoring comments sentIds rescore now since_days).map
    commentSelRow

/-! ### Daily aggregation (sentiment_organizer.py, AGG_SQL and
aggregate_daily) -/

/-- The columns of a posts or comments row that AGG_SQL reads. -/
structure AggItem where
  id : Nat
  score : Int
  created_utc : Int
deriving DecidableEq

/-- One row of the tickers table. -/
structure Ticker where
  id : Nat
  symbol : List Char
deriving DecidableEq

/-- One row of a link table (post_tickers or comment_tickers). -/
structure LinkRow where
  entity_id : Nat
  ticker_id : Nat
deriving DecidableEq

/-- The columns of a sentiment row that AGG_SQL reads: the lexicon compound
score and the optional model signed score. -/
structure SentimentRow where
  entity_id : Nat
  vader_compound : ℚ
  finbert_signed : Option ℚ
deriving DecidableEq

/-- One row of the daily_sentiment table. -/
structure DailyRow where
  ticker : List Char
  date : Int
  sentiment : Option ℚ
  count : Nat
  weight_sum : ℚ
deriving DecidableEq

/-- The database state that AGG_SQL reads and writes. -/
structure AggDB where
  posts : List AggItem
  comments : List AggItem
  tickers : List Ticker
  post_tickers : List LinkRow
  comment_tickers : List LinkRow
  post_sentiment : List SentimentRow
  comment_sentiment : List SentimentRow
  daily_sentiment : List DailyRow
deriving DecidableEq

/-- The UTC calendar date of a timestamp, as the floored day number: the
cast of created_utc AT TIME ZONE UTC to a date. -/
def utcDate (t : Int) : Int :=
  Int.fdiv t 86400

/-- One row of the union_s stage of AGG_SQL. -/
structure UnionRow where
  ticker : List Char
  date : Int
  s : ℚ
  w : ℚ
deriving DecidableEq

/-- The post_s and comment_s stages of AGG_SQL, shared shape: the inner
joins of an entity table with its link rows, the tickers table and its
sentiment table, projecting the ticker symbol, the UTC date, the signed
sentiment COALESCE(finbert_signed, vader_compound) and the clamped weight
GREATEST(score, 0). -/
def itemRows (items : List AggItem) (links : List LinkRow)
    (tickers : List Ticker) (sent : List SentimentRow) : List UnionRow :=
  items.flatMap (fun p =>
    (links.filter (fun pt => decide (pt.entity_id = p.id))).flatMap (fun pt =>
      (tickers.filter (fun t => decide (t.id = pt.ticker_id))).flatMap (fun t =>
        (sent.filter (fun ps => decide (ps.entity_id = p.id))).map (fun ps =>
          { ticker := t.symbol
            date := utcDate p.created_utc
            s := ps.finbert_signed.getD ps.vader_compound
            w := max ((p.score : ℚ)) 0 }))))

/-- The post_s stage of AGG_SQL. -/
def post_s (db : AggDB) : List UnionRow :=
  itemRows db.posts db.post_tickers db.tickers db.post_sentiment

/-- The comment_s stage of AGG_SQL. -/
def comment_s (db : AggDB) : List UnionRow :=
  itemRows db.comments db.comment_tickers db.tickers db.comment_sentiment

/-- The union_s stage of AGG_SQL: UNION ALL of both branches. -/
def union_s (db : AggDB) : List UnionRow :=
  post_s db ++ comment_s db

/-- The group of union_s rows for one GROUP BY key. -/
def groupRows (db : AggDB) (tk : List Char) (d : Int) : List UnionRow :=
  (union_s db).filter (fun r => decide (r.ticker = tk) && decide (r.date = d))

/-- The rolled stage of AGG_SQL for one key: SUM(s * w) / NULLIF(SUM(w), 0)
is null exactly when the weight sum is zero, COUNT(*) is the group size,
SUM(w) is the weight sum. -/
def rolledRow (db : AggDB) (tk : List Char) (d : Int) : DailyRow :=
  let g := groupRows db tk d
  let ws : ℚ := (g.map (fun r => r.w)).sum
  { ticker := tk
    date := d
    sentiment := if ws = 0 then none else some ((g.map (fun r => r.s * r.w)).sum / ws)
    count := g.length
    weight_sum := ws }

/-- The distinct GROUP BY keys of union_s. -/
def aggKeys (db : AggDB) : List (List Char × Int) :=
  ((union_s db).map (fun r => (r.ticker, r.date))).dedup

/-- The rolled stage of AGG_SQL: one aggregate row per distinct key. -/
def rolled (db : AggDB) : List DailyRow :=
  (aggKeys db).map (fun k => rolledRow db k.1 k.2)

/-- aggregate_daily: the INSERT ... ON CONFLICT (ticker, date) DO UPDATE of
AGG_SQL. Every computed key fully replaces any prior daily_sentiment row
with that key; prior rows with other keys are kept. -/
def aggregate_daily (db : AggDB) : List DailyRow :=
  (db.daily_sentiment.filter
      (fun r => !decide ((r.ticker, r.date) ∈ aggKeys db))) ++ rolled db

/-! ### The per-subreddit driver (scrape_posts.py, main block) -/

/-- The driver of the main block of scrape_posts.py over an abstract
database state. One scrape_subreddit pass runs inside a transaction scope
that commits the passes writes on success and rolls them back on any
exception, re-raising it; a pass is a state transformer returning none when
it raises. The driver folds the passes over the subreddit list inside one
try block: a raising pass leaves the state as it was when the pass started,
stops the loop, and the exception propagates. Result: final state, the list
of subreddits attempted, and whether an exception propagated. -/
def runMain {σ : Type} (f : List Char → σ → Option σ) :
    List (List Char) → σ → σ × List (List Char) × Bool
  | [], db => (db, [], false)
  | s :: rest, db =>
    match f s db with
    | some db1 =>
      let r := runMain f rest db1
      (r.1, s :: r.2.1, r.2.2)
    | none => (db, [s], true)

/-! ### Concrete inputs used by the witnesses -/

/-- A pass that raises on every subreddit. -/
def failingPass : List Char → Unit → Option Unit :=
  fun _ _ => none

/-- A first sighting of a post, all nullable fields populated. -/
def exRawPost1 : RawPost where
  id := "p1".toList
  title := some "Title one".toList
  selftext := some "Body one".toList
  url := some "http-one".toList
  permalink := some "perma-one".toList
  score := some 5
  num_comments := some 2
  created_utc := 1000

/-- A re-scrape of the same post with every field changed. -/
def exRawPost2 : RawPost where
  id := "p1".toList
  title := some "Title two".toList
  selftext := some "Body two".toList
  url := some "http-two".toList
  permalink := some "perma-two".toList
  score := some 50
  num_comments := some 20
  created_utc := 2000

/-- The posts table after the first sighting of exRawPost1. -/
def exPostsTable : PostsTable :=
  (upsert_post ⟨0, []⟩ exRawPost1 1 2).2

/-- A source post with every nullable field null. -/
def exNullPost : RawPost where
  id := "p9".toList
  title := none
  selftext := none
  url := none
  permalink := none
  score := none
  num_comments := none
  created_utc := 7

/-- A source comment with every nullable field null. -/
def exNullComment : RawComment where
  id := "c9".toList
  body := none
  score := none
  created_utc := 8

/-- Transport behaviour for the fetch witness: a header-only body on the
first attempt, a network error on the second, a parseable body on the
third. -/
def exResp : Nat → Option (List (List Char))
  | 1 => some ["Symbol|ETF".toList]
  | 2 => none
  | _ => some ["Symbol|ETF".toList, "AAPL|N".toList]

/-- Aggregation state with one ticker and two contributing posts on one UTC
date: signed sentiments one (from the model score) and minus one half (from
the lexicon score, model score absent), weights ten and two. -/
def exAggDB : AggDB where
  posts := [⟨1, 10, 0⟩, ⟨2, 2, 0⟩]
  comments := []
  tickers := [⟨1, "GME".toList⟩]
  post_tickers := [⟨1, 1⟩, ⟨2, 1⟩]
  comment_tickers := []
  post_sentiment := [⟨1, 0, some 1⟩, ⟨2, -1/2, none⟩]
  comment_sentiment := []
  daily_sentiment := []

/-- Aggregation state whose two contributing posts both have non-positive
engagement scores, so both weights clamp to zero. -/
def exAggDB0 : AggDB where
  posts := [⟨1, 0, 0⟩, ⟨2, -3, 0⟩]
  comments := []
  tickers := [⟨1, "GME".toList⟩]
  post_tickers := [⟨1, 1⟩, ⟨2, 1⟩]
  comment_tickers := []
  post_sentiment := [⟨1, 0, some 1⟩, ⟨2, -1/2, none⟩]
  comment_sentiment := []
  daily_sentiment := []

/-! ### Helper lemmas -/

/-- An uppercase ASCII letter is alphabetic. -/
theorem isAlpha_of_isUpper {c : Char} (h : c.isUpper = true) : c.isAlpha = true := by
  simp [Char.isAlpha, h]

/-- Membership in extract_tickers for a present text. -/
theorem mem_extract_tickers (t w : List Char) :
    w ∈ extract_tickers (some t) ↔
      (w ∈ wordRuns t ∧ 1 ≤ w.length ∧ w.length ≤ 5 ∧
        ∀ c ∈ w, c.isUpper = true) := by
  by_cases ht : t = []
  · subst ht
    simp [extract_tickers, wordRuns, wordRunsAux]
  · simp only [extract_tickers, if_neg ht, List.mem_dedup, List.mem_filter,
      TICKER_RE_findall, tickerToken, pyIsAlpha, Bool.and_eq_true,
      decide_eq_true_eq, List.all_eq_true, Bool.not_eq_true',
      List.isEmpty_eq_false]
    constructor
    · rintro ⟨⟨hw, ⟨h1, h5⟩, hup⟩, -, -⟩
      exact ⟨hw, h1, h5, hup⟩
    · rintro ⟨hw, h1, h5, hup⟩
      refine ⟨⟨hw, ⟨h1, h5⟩, hup⟩, ?_, fun c hc => isAlpha_of_isUpper (hup c hc)⟩
      intro h0
      subst h0
      simp at h1

/-- C6: for every input text, extract_tickers returns exactly the set of
distinct word-boundary delimited tokens of one to five uppercase letters;
every element is an uppercase alphabetic token of length one to five, and
null or empty input yields the empty set. -/
theorem C6_extract_tickers_spec :
    (∀ t w, w ∈ extract_tickers (some t) ↔
      (w ∈ wordRuns t ∧ 1 ≤ w.length ∧ w.length ≤ 5 ∧
        ∀ c ∈ w, c.isUpper = true)) ∧
    (∀ t w, w ∈ extract_tickers t →
      (1 ≤ w.length ∧ w.length ≤ 5 ∧
        ∀ c ∈ w, (c.isUpper = true ∧ c.isAlpha = true))) ∧
    extract_tickers none = [] ∧
    extract_tickers (some []) = [] ∧
    (∀ t, (extract_tickers t).Nodup) := by
  refine ⟨mem_extract_tickers, ?_, rfl, by simp [extract_tickers], ?_⟩
  · rintro (- | t) w hw
    · simp [extract_tickers] at hw
    · obtain ⟨-, h1, h5, hup⟩ := (mem_extract_tickers t w).1 hw
      exact ⟨h1, h5, fun c hc => ⟨hup c hc, isAlpha_of_isUpper (hup c hc)⟩⟩
  · rintro (- | t)
    · simp [extract_tickers]
    · by_cases ht : t = []
      · subst ht
        simp [extract_tickers]
      · simp only [extract_tickers, if_neg ht]
        exact List.nodup_dedup _

/-- Witness for C6 at a concrete text: GME is extracted from a mixed text. -/
theorem C6_extract_tickers_witness :
    "GME".toList ∈ extract_tickers (some "Buy GME and AMC now!".toList) := by
  have h := C6_extract_tickers_spec.1 "Buy GME and AMC now!".toList "GME".toList
  exact h.2 ⟨by decide, by decide, by decide, by decide⟩

/-- C3: repeating the reference upsert with the same value returns the same
surrogate id both times, leaves the table unchanged on the repeat (and in
particular raises no error), and a value not yet present creates exactly one
row; a value already present changes nothing. -/
theorem C3_upsert_ref_idempotent {α : Type} [DecidableEq α]
    (t : RefTable α) (v : α) :
    (upsert_ref (upsert_ref t v).2 v).1 = (upsert_ref t v).1 ∧
    (upsert_ref (upsert_ref t v).2 v).2 = (upsert_ref t v).2 ∧
    ((∀ r ∈ t.rows, r.2 ≠ v) →
      (upsert_ref t v).2.rows = t.rows ++ [(t.next_id, v)] ∧
      ((upsert_ref t v).2.rows.countP (fun r => decide (r.2 = v))) = 1) ∧
    (∀ r ∈ t.rows, r.2 = v → (upsert_ref t v).2 = t) := by
  cases hf : t.rows.find? (fun r => decide (r.2 = v)) with
  | none =>
    have hnone : ∀ x ∈ t.rows, x.2 ≠ v := by
      intro x hx
      have := List.find?_eq_none.1 hf x hx
      simpa using this
    have h1 : upsert_ref t v
        = (t.next_id, ⟨t.next_id + 1, t.rows ++ [(t.next_id, v)]⟩) := by
      simp [upsert_ref, hf]
    have hf2 : (t.rows ++ [(t.next_id, v)]).find? (fun r => decide (r.2 = v))
        = some (t.next_id, v) := by
      rw [List.find?_append, hf]
      simp
    have h2 : upsert_ref (⟨t.next_id + 1, t.rows ++ [(t.next_id, v)]⟩ : RefTable α) v
        = (t.next_id, ⟨t.next_id + 1, t.rows ++ [(t.next_id, v)]⟩) := by
      simp [upsert_ref, hf2]
    refine ⟨?_, ?_, ?_, ?_⟩
    · rw [h1, h2]
    · rw [h1, h2]
    · intro _
      rw [h1]
      refine ⟨rfl, ?_⟩
      simp only [List.countP_append]
      rw [List.countP_eq_zero.2 (by intro a ha; simpa using hnone a ha)]
      simp
    · intro r0 h0 hv
      exact absurd hv (hnone r0 h0)
  | some r =>
    have h1 : upsert_ref t v = (r.1, t) := by
      simp [upsert_ref, hf]
    have hm := List.mem_of_find?_eq_some hf
    have hp : r.2 = v := by
      have := List.find?_some hf
      simpa using this
    refine ⟨by simp [h1], by simp [h1], ?_, fun _ _ _ => by rw [h1]⟩
    intro h
    exact absurd hp (h r hm)

/-- Witness for C3: upserting GME twice into an empty ticker table yields the
same id five twice and exactly one row. -/
theorem C3_upsert_ref_witness :
    (upsert_ref (upsert_ref (⟨5, []⟩ : RefTable (List Char)) "GME".toList).2
        "GME".toList).1
      = (upsert_ref (⟨5, []⟩ : RefTable (List Char)) "GME".toList).1 ∧
    (upsert_ref (⟨5, []⟩ : RefTable (List Char)) "GME".toList).2.rows
      = [] ++ [(5, "GME".toList)] ∧
    ((upsert_ref (⟨5, []⟩ : RefTable (List Char)) "GME".toList).2.rows.countP
        (fun r => decide (r.2 = "GME".toList))) = 1 := by
  have h := C3_upsert_ref_idempotent (⟨5, []⟩ : RefTable (List Char)) "GME".toList
  have h3 := h.2.2.1 (by simp)
  exact ⟨h.1, h3.1, h3.2⟩

/-- C5: upserting a post whose platform id is already persisted refreshes
only score and num_comments on the matching row: the row count is unchanged,
the stored row keeps its first-insert title, selftext, url, permalink,
created_utc and snapshot (only the two engagement fields are rewritten), and
rows with other platform ids are untouched. -/
theorem C5_upsert_post_frame (t : PostsTable) (p : RawPost) (sid aid : Nat)
    (r : PostRow) (hr : r ∈ t.rows) (hid : r.reddit_id = p.id) :
    (upsert_post t p sid aid).2.rows.length = t.rows.length ∧
    ({ r with score := some (p.score.getD 0),
              num_comments := some (p.num_comments.getD 0) } : PostRow)
        ∈ (upsert_post t p sid aid).2.rows ∧
    ∀ q ∈ t.rows, q.reddit_id ≠ p.id → q ∈ (upsert_post t p sid aid).2.rows := by
  cases hf : t.rows.find? (fun x => decide (x.reddit_id = p.id)) with
  | none =>
    exfalso
    have := List.find?_eq_none.1 hf r hr
    simp [hid] at this
  | some x =>
    have hres : (upsert_post t p sid aid).2.rows
        = t.rows.map (fun q =>
            if q.reddit_id = p.id then
              { q with score := some (p.score.getD 0),
                       num_comments := some (p.num_comments.getD 0) }
            else q) := by
      simp [upsert_post, hf]
    refine ⟨by rw [hres]; exact List.length_map _ _, ?_, ?_⟩
    · rw [hres]
      refine List.mem_map.2 ⟨r, hr, ?_⟩
      simp [hid]
    · intro q hq hne
      rw [hres]
      refine List.mem_map.2 ⟨q, hq, ?_⟩
      simp [hne]

/-- Witness for C5: re-scraping the same post with different content fields
and engagement fields updates only score and num_comments. -/
theorem C5_upsert_post_witness :
    (upsert_post exPostsTable exRawPost2 1 2).2.rows.length
      = exPostsTable.rows.length ∧
    ({ newPostRow 0 exRawPost1 1 2 with
        score := some 50, num_comments := some 20 } : PostRow)
      ∈ (upsert_post exPostsTable exRawPost2 1 2).2.rows := by
  have h := C5_upsert_post_frame exPostsTable exRawPost2 1 2
    (newPostRow 0 exRawPost1 1 2) (by decide) (by decide)
  exact ⟨h.1, h.2.1⟩

/-- C10: the text and numeric columns bound by upsert_post and
upsert_comment are the coerced values: a null title, selftext, url,
permalink or body is stored as the empty string and a null score or comment
count as zero, so both upserts only ever write non-null values into those
columns and preserve their non-null invariant. -/
theorem C10_nonnull_coercion (tp : PostsTable) (p : RawPost) (sid aid : Nat)
    (tc : CommentsTable) (c : RawComment) (cpid caid : Nat)
    (par : Option Nat) :
    ((∀ r ∈ tp.rows, postRowNonNull r = true) →
      ∀ r ∈ (upsert_post tp p sid aid).2.rows, postRowNonNull r = true) ∧
    (newPostRow tp.next_id p sid aid).title = some (p.title.getD []) ∧
    (newPostRow tp.next_id p sid aid).selftext = some (p.selftext.getD []) ∧
    (newPostRow tp.next_id p sid aid).url = some (p.url.getD []) ∧
    (newPostRow tp.next_id p sid aid).permalink = some (p.permalink.getD []) ∧
    (newPostRow tp.next_id p sid aid).score = some (p.score.getD 0) ∧
    (newPostRow tp.next_id p sid aid).num_comments
      = some (p.num_comments.getD 0) ∧
    ((∀ r ∈ tc.rows, commentRowNonNull r = true) →
      ∀ r ∈ (upsert_comment tc c cpid caid par).2.rows,
        commentRowNonNull r = true) ∧
    (newCommentRow tc.next_id c cpid caid par).body = some (c.body.getD []) ∧
    (newCommentRow tc.next_id c cpid caid par).score
      = some (c.score.getD 0) := by
  refine ⟨?_, rfl, rfl, rfl, rfl, rfl, rfl, ?_, rfl, rfl⟩
  · intro hall r hr
    cases hf : tp.rows.find? (fun x => decide (x.reddit_id = p.id)) with
    | none =>
      have hres : (upsert_post tp p sid aid).2.rows
          = tp.rows ++ [newPostRow tp.next_id p sid aid] := by
        simp [upsert_post, hf]
      rw [hres] at hr
      rcases List.mem_append.1 hr with h | h
      · exact hall r h
      · simp only [List.mem_singleton] at h
        subst h
        simp [postRowNonNull, newPostRow]
    | some x =>
      have hres : (upsert_post tp p sid aid).2.rows
          = tp.rows.map (fun q =>
              if q.reddit_id = p.id then
                { q with score := some (p.score.getD 0),
                         num_comments := some (p.num_comments.getD 0) }
              else q) := by
        simp [upsert_post, hf]
      rw [hres] at hr
      obtain ⟨q, hq, hfq⟩ := List.mem_map.1 hr
      have hqn := hall q hq
      subst hfq
      by_cases hq2 : q.reddit_id = p.id
      · simp only [if_pos hq2]
        simp only [postRowNonNull, Bool.and_eq_true] at hqn ⊢
        simp only [Option.isSome_some]
        tauto
      · simpa [if_neg hq2] using hqn
  · intro hall r hr
    cases hf : tc.rows.find? (fun x => decide (x.reddit_id = c.id)) with
    | none =>
      have hres : (upsert_comment tc c cpid caid par).2.rows
          = tc.rows ++ [newCommentRow tc.next_id c cpid caid par] := by
        simp [upsert_comment, hf]
      rw [hres] at hr
      rcases List.mem_append.1 hr with h | h
      · exact hall r h
      · simp only [List.mem_singleton] at h
        subst h
        simp [commentRowNonNull, newCommentRow]
    | some x =>
      have hres : (upsert_comment tc c cpid caid par).2.rows
          = tc.rows.map (fun q =>
              if q.reddit_id = c.id then
                { q with score := some (c.score.getD 0) }
              else q) := by
        simp [upsert_comment, hf]
      rw [hres] at hr
      obtain ⟨q, hq, hfq⟩ := List.mem_map.1 hr
      have hqn := hall q hq
      subst hfq
      by_cases hq2 : q.reddit_id = c.id
      · simp only [if_pos hq2]
        simp only [commentRowNonNull, Bool.and_eq_true] at hqn ⊢
        simp only [Option.isSome_some]
        tauto
      · simpa [if_neg hq2] using hqn

/-- Witness for C10: ingesting a post and a comment whose nullable source
fields are all null stores empty strings and zeros, and the resulting
tables hold no null in the written columns. -/
theorem C10_nonnull_witness :
    ((upsert_post (⟨0, []⟩ : PostsTable) exNullPost 1 2).2.rows.all
        postRowNonNull) = true ∧
    ((upsert_comment (⟨0, []⟩ : CommentsTable) exNullComment 3 4 none).2.rows.all
        commentRowNonNull) = true ∧
    (newPostRow 0 exNullPost 1 2).title = some [] ∧
    (newPostRow 0 exNullPost 1 2).score = some 0 ∧
    (newCommentRow 0 exNullComment 3 4 none).body = some [] ∧
    (newCommentRow 0 exNullComment 3 4 none).score = some 0 := by
  have h := C10_nonnull_coercion ⟨0, []⟩ exNullPost 1 2 ⟨0, []⟩ exNullComment 3 4 none
  refine ⟨List.all_eq_true.2 (h.1 (by simp)), ?_, h.2.1, ?_, ?_, ?_⟩
  · exact List.all_eq_true.2 (h.2.2.2.2.2.2.2.1 (by simp))
  · exact h.2.2.2.2.2.1
  · exact h.2.2.2.2.2.2.2.2.1
  · exact h.2.2.2.2.2.2.2.2.2

/-- The left join emits at least one partner for every entity row. -/
theorem leftJoinIds_ne_nil (sentIds : List Nat) (i : Nat) :
    leftJoinIds sentIds i ≠ [] := by
  unfold leftJoinIds
  cases h : sentIds.filter (fun j => decide (j = i)) with
  | nil => simp
  | cons a l => simp

/-- The null partner appears in the left join exactly when no sentiment key
matches the entity. -/
theorem none_mem_leftJoinIds (sentIds : List Nat) (i : Nat) :
    none ∈ leftJoinIds sentIds i ↔ i ∉ sentIds := by
  unfold leftJoinIds
  cases h : sentIds.filter (fun j => decide (j = i)) with
  | nil =>
    have hall := List.filter_eq_nil_iff.1 h
    simp only [List.mem_singleton, true_iff]
    intro hi
    exact hall i hi (by simp)
  | cons a l =>
    have ha : a ∈ sentIds.filter (fun j => decide (j = i)) := by
      rw [h]
      exact List.mem_cons_self a l
    have := List.mem_filter.1 ha
    have hi : i ∈ sentIds := by
      have hai : a = i := by simpa using this.2
      rw [← hai]
      exact this.1
    simp [hi]

/-- Membership in the shared selection with rescore false: exactly the
entity rows with no matching sentiment key, regardless of age. -/
theorem mem_fetchBase_false {α : Type} (es : List α) (eid : α → Nat)
    (created : α → Int) (sentIds : List Nat) (since : Int) (x : α) :
    x ∈ fetchBase es eid created sentIds false since ↔
      x ∈ es ∧ eid x ∉ sentIds := by
  unfold fetchBase
  simp only [List.mem_flatMap, List.mem_map, List.mem_filter]
  constructor
  · rintro ⟨p, hp, s, ⟨hsmem, hpred⟩, rfl⟩
    simp only [Bool.false_and, Bool.not_false, Bool.true_and, Bool.false_or,
      Option.isSome] at hpred
    have hs : s = none := by
      cases s with
      | none => rfl
      | some v => simp [Option.isNone] at hpred
    subst hs
    exact ⟨hp, (none_mem_leftJoinIds sentIds (eid p)).1 hsmem⟩
  · rintro ⟨hx, hno⟩
    refine ⟨x, hx, none, ⟨(none_mem_leftJoinIds sentIds (eid x)).2 hno, ?_⟩, rfl⟩
    simp
  
/-- Membership in the shared selection with rescore true: exactly the
entity rows created at or after the cutoff, regardless of sentiment keys. -/
theorem mem_fetchBase_true {α : Type} (es : List α) (eid : α → Nat)
    (created : α → Int) (sentIds : List Nat) (since : Int) (x : α) :
    x ∈ fetchBase es eid created sentIds true since ↔
      x ∈ es ∧ since ≤ created x := by
  unfold fetchBase
  simp only [List.mem_flatMap, List.mem_map, List.mem_filter]
  constructor
  · rintro ⟨p, hp, s, ⟨hsmem, hpred⟩, rfl⟩
    simp only [Bool.true_and, Bool.not_true, Bool.false_and, Bool.or_false,
      decide_eq_true_eq] at hpred
    exact ⟨hp, hpred⟩
  · rintro ⟨hx, hle⟩
    obtain ⟨s, hs⟩ := List.exists_mem_of_ne_nil _ (leftJoinIds_ne_nil sentIds (eid x))
    exact ⟨x, hx, s, ⟨hs, by simp [hle]⟩, rfl⟩

/-- C4: with rescore false the scoring selection returns exactly the rows of
the target entity table with no corresponding sentiment row, regardless of
age; with rescore true it returns exactly the rows created within the
trailing since_days window, regardless of existing sentiment rows; and the
full query result is the column projection of that selection. -/
theorem C4_fetch_for_scoring_spec (posts : List ScorePost)
    (comments : List ScoreComment) (postSent commentSent : List Nat)
    (now : Int) (sd : Nat) :
    (∀ p, p ∈ postsForScoring posts postSent false now sd ↔
      p ∈ posts ∧ p.id ∉ postSent) ∧
    (∀ p, p ∈ postsForScoring posts postSent true now sd ↔
      p ∈ posts ∧ now - (sd : Int) * 86400 ≤ p.created_utc) ∧
    (∀ c, c ∈ commentsForScoring comments commentSent false now sd ↔
      c ∈ comments ∧ c.id ∉ commentSent) ∧
    (∀ c, c ∈ commentsForScoring comments commentSent true now sd ↔
      c ∈ comments ∧ now - (sd : Int) * 86400 ≤ c.created_utc) ∧
    (∀ b, fetch_for_scoring_posts posts postSent b now sd
      = (postsForScoring posts postSent b now sd).map postSelRow) ∧
    (∀ b, fetch_for_scoring_comments comments commentSent b now sd
      = (commentsForScoring comments commentSent b now sd).map commentSelRow) := by
  exact ⟨fun p => mem_fetchBase_false posts _ _ postSent _ p,
    fun p => mem_fetchBase_true posts _ _ postSent _ p,
    fun c => mem_fetchBase_false comments _ _ commentSent _ c,
    fun c => mem_fetchBase_true comments _ _ commentSent _ c,
    fun _ => rfl, fun _ => rfl⟩

/-- Witness for C4 on a two-post table with one sentiment row: with rescore
false only the unscored post is selected; with rescore true only the recent
post is selected even though it is the scored one. -/
theorem C4_fetch_for_scoring_witness :
    ((⟨2, none, none, 4, 999000⟩ : ScorePost)
      ∈ postsForScoring
          [⟨1, none, none, 3, 999050⟩, ⟨2, none, none, 4, 999000⟩] [1]
          false 999100 1) ∧
    ((⟨1, none, none, 3, 999050⟩ : ScorePost)
      ∉ postsForScoring
          [⟨1, none, none, 3, 999050⟩, ⟨2, none, none, 4, 999000⟩] [1]
          false 999100 1) ∧
    ((⟨1, none, none, 3, 999050⟩ : ScorePost)
      ∈ postsForScoring
          [⟨1, none, none, 3, 999050⟩, ⟨2, none, none, 4, 10⟩] [1]
          true 999100 1) ∧
    ((⟨2, none, none, 4, 10⟩ : ScorePost)
      ∉ postsForScoring
          [⟨1, none, none, 3, 999050⟩, ⟨2, none, none, 4, 10⟩] [1]
          true 999100 1) := by
  have h1 := C4_fetch_for_scoring_spec
    [⟨1, none, none, 3, 999050⟩, ⟨2, none, none, 4, 999000⟩] [] [1] [] 999100 1
  have h2 := C4_fetch_for_scoring_spec
    [⟨1, none, none, 3, 999050⟩, ⟨2, none, none, 4, 10⟩] [] [1] [] 999100 1
  refine ⟨(h1.1 _).2 ⟨by decide, by decide⟩, ?_, (h2.2.1 _).2 ⟨by decide, by decide⟩, ?_⟩
  · intro hmem
    have := ((h1.1 _).1 hmem).2
    simp at this
  · intro hmem
    have := ((h2.2.1 _).1 hmem).2
    revert this
    decide

/-- C9: fetch returns the parsed rows of the first successful attempt, with
one back-off sleep of linearly increasing duration per preceding failure;
when every one of its three attempts fails it returns the terminal error
after sleeping 2, 3, 4 seconds; and a body parsing to zero rows (empty or
header-only) fails the attempt exactly like a transport error, so it is
retried rather than skipped. -/
theorem C9_fetch_retry_spec (resp : Nat → Option (List (List Char))) :
    (∀ k rows, 1 ≤ k → k ≤ 3 →
      (∀ j, 1 ≤ j → j < k → attemptResult (resp j) = none) →
      attemptResult (resp k) = some rows →
      fetch resp = (some rows, (List.range (k - 1)).map (fun i => i + 2))) ∧
    ((∀ j, 1 ≤ j → j ≤ 3 → attemptResult (resp j) = none) →
      fetch resp = (none, [2, 3, 4])) ∧
    (∀ lines, parseRows lines = [] → attemptResult (some lines) = none) ∧
    (∀ lines rows, attemptResult (some lines) = some rows →
      rows = parseRows lines) := by
  refine ⟨?_, ?_, ?_, ?_⟩
  · intro k rows h1 h3 hfail hk
    interval_cases k
    · simp [fetch, fetchAux, hk]
    · have f1 := hfail 1 (by omega) (by omega)
      simp [fetch, fetchAux, f1, hk]
      decide
    · have f1 := hfail 1 (by omega) (by omega)
      have f2 := hfail 2 (by omega) (by omega)
      simp [fetch, fetchAux, f1, f2, hk]
      decide
  · intro hfail
    have f1 := hfail 1 (by omega) (by omega)
    have f2 := hfail 2 (by omega) (by omega)
    have f3 := hfail 3 (by omega) (by omega)
    simp [fetch, fetchAux, f1, f2, f3]
  · intro lines h
    simp [attemptResult, h]
  · intro lines rows h
    by_cases he : (parseRows lines).isEmpty
    · simp [attemptResult, he] at h
    · simp only [attemptResult, he, if_neg, Bool.false_eq_true,
        not_false_eq_true, Option.some.injEq] at h
      exact h.symm

/-- Witness for C9: a header-only body on attempt one (retried), a network
error on attempt two (retried), and a parseable body on attempt three give
the parsed rows with back-off sleeps of two and three seconds. -/
theorem C9_fetch_retry_witness :
    fetch exResp
      = (some [[("Symbol".toList, "AAPL".toList), ("ETF".toList, "N".toList)]],
          [2, 3]) := by
  have h := (C9_fetch_retry_spec exResp).1 3
    [[("Symbol".toList, "AAPL".toList), ("ETF".toList, "N".toList)]]
    (by omega) (by omega)
    (by
      intro j hj1 hj2
      interval_cases j
      · decide
      · decide)
    (by decide)
  rw [h]
  decide

/-- Counterexample for C7: with the fixed target list of the main block and
a pass that raises on the first subreddit, the exception is propagated but
the remaining subreddits of the caller-supplied list are never attempted,
contradicting the claim that a failure does not prevent them from being
attempted. -/
theorem C7_driver_counterexample :
    (runMain failingPass
        ["stocks".toList, "wallstreetbets".toList, "investing".toList] ()).2.2
      = true ∧
    (runMain failingPass
        ["stocks".toList, "wallstreetbets".toList, "investing".toList] ()).2.1
      = ["stocks".toList] ∧
    "wallstreetbets".toList ∉
      (runMain failingPass
        ["stocks".toList, "wallstreetbets".toList, "investing".toList] ()).2.1 ∧
    "investing".toList ∉
      (runMain failingPass
        ["stocks".toList, "wallstreetbets".toList, "investing".toList] ()).2.1 := by
  refine ⟨rfl, rfl, ?_, ?_⟩ <;> decide

/-- C7 amended: when an exception propagates out of the driver, the
subreddit list splits into a prefix of clean passes followed by the failing
subreddit; the final state is exactly the state after the clean prefix (the
failing pass rolled its writes back), the failing pass raised from that
state, and the attempted subreddits are the clean prefix plus the failing
one - the remaining subreddits of the list are not attempted in that run. -/
theorem C7_driver_rollback_and_stop {σ : Type} (f : List Char → σ → Option σ)
    (subs : List (List Char)) (db : σ)
    (herr : (runMain f subs db).2.2 = true) :
    ∃ pre s rest, subs = pre ++ s :: rest ∧
      (runMain f pre db).2.2 = false ∧
      (runMain f subs db).1 = (runMain f pre db).1 ∧
      f s ((runMain f pre db).1) = none ∧
      (runMain f subs db).2.1 = (runMain f pre db).2.1 ++ [s] := by
  induction subs generalizing db with
  | nil => simp [runMain] at herr
  | cons s rest ih =>
    cases hs : f s db with
    | none =>
      refine ⟨[], s, rest, rfl, rfl, ?_, ?_, ?_⟩
      · simp [runMain, hs]
      · simpa [runMain] using hs
      · simp [runMain, hs]
    | some db1 =>
      have herr1 : (runMain f rest db1).2.2 = true := by
        simpa [runMain, hs] using herr
      obtain ⟨pre, s0, rest0, hsplit, hclean, hstate, hfail, hatt⟩ := ih db1 herr1
      refine ⟨s :: pre, s0, rest0, by rw [hsplit]; rfl, ?_, ?_, ?_, ?_⟩
      · simpa [runMain, hs] using hclean
      · simpa [runMain, hs] using hstate
      · simpa [runMain, hs] using hfail
      · simp only [runMain, hs]
        rw [List.cons_append]
        exact congrArg (fun l => s :: l) hatt

/-- Witness for the amended C7 at a concrete run: both subreddits are listed,
the first pass raises, the split is the empty clean prefix plus the failing
first subreddit, the state is rolled back, and the second subreddit is not
attempted. -/
theorem C7_driver_rollback_witness :
    ∃ pre s rest,
      (["stocks".toList, "investing".toList] : List (List Char))
        = pre ++ s :: rest ∧
      (runMain failingPass pre ()).2.2 = false ∧
      (runMain failingPass ["stocks".toList, "investing".toList] ()).1
        = (runMain failingPass pre ()).1 ∧
      failingPass s ((runMain failingPass pre ()).1) = none ∧
      (runMain failingPass ["stocks".toList, "investing".toList] ()).2.1
        = (runMain failingPass pre ()).2.1 ++ [s] :=
  C7_driver_rollback_and_stop failingPass
    ["stocks".toList, "investing".toList] () (by decide)

/-- A key with at least one contributing union row gets its rolled aggregate
row stored by the upsert of AGG_SQL. -/
theorem rolledRow_mem_aggregate_daily (db : AggDB) (tk : List Char) (d : Int)
    (hne : groupRows db tk d ≠ []) :
    rolledRow db tk d ∈ aggregate_daily db := by
  have hkey : (tk, d) ∈ aggKeys db := by
    obtain ⟨u, hu⟩ := List.exists_mem_of_ne_nil _ hne
    have hu2 := List.mem_filter.1 hu
    have heq : u.ticker = tk ∧ u.date = d := by
      have h := hu2.2
      simp only [Bool.and_eq_true, decide_eq_true_eq] at h
      exact h
    simp only [aggKeys, List.mem_dedup, List.mem_map]
    exact ⟨u, hu2.1, by rw [heq.1, heq.2]⟩
  simp only [aggregate_daily, List.mem_append, rolled, List.mem_map]
  exact Or.inr ⟨(tk, d), hkey, rfl⟩

/-- C1: for every group with at least one contributing item and nonzero
weight sum, the stored daily aggregate is the weighted mean: the sentiment
is the sum of signed sentiment times weight over the sum of weights, count
is the number of contributing items, weight_sum is the summed weight, the
row is stored by aggregate_daily, and every contributing item carries the
model signed score when present (else the lexicon compound score) as its
signed sentiment and its engagement score clamped at zero as its weight. -/
theorem C1_aggregate_weighted_mean (db : AggDB) (tk : List Char) (d : Int)
    (hne : groupRows db tk d ≠ [])
    (hw : ((groupRows db tk d).map (fun r => r.w)).sum ≠ 0) :
    (rolledRow db tk d).sentiment =
      some (((groupRows db tk d).map (fun r => r.s * r.w)).sum /
        ((groupRows db tk d).map (fun r => r.w)).sum) ∧
    (rolledRow db tk d).count = (groupRows db tk d).length ∧
    (rolledRow db tk d).weight_sum
      = ((groupRows db tk d).map (fun r => r.w)).sum ∧
    rolledRow db tk d ∈ aggregate_daily db ∧
    (∀ u ∈ post_s db, ∃ p ∈ db.posts, ∃ ps ∈ db.post_sentiment,
      ps.entity_id = p.id ∧ u.s = ps.finbert_signed.getD ps.vader_compound ∧
      u.w = max ((p.score : ℚ)) 0) ∧
    (∀ u ∈ comment_s db, ∃ q ∈ db.comments, ∃ cs ∈ db.comment_sentiment,
      cs.entity_id = q.id ∧ u.s = cs.finbert_signed.getD cs.vader_compound ∧
      u.w = max ((q.score : ℚ)) 0) := by
  refine ⟨?_, rfl, rfl, rolledRow_mem_aggregate_daily db tk d hne, ?_, ?_⟩
  · simp only [rolledRow, if_neg hw]
  · intro u hu
    simp only [post_s, itemRows, List.mem_flatMap, List.mem_map,
      List.mem_filter, decide_eq_true_eq] at hu
    obtain ⟨p, hp, pt, hpt, t, ht, ps, ⟨hps, hpse⟩, hru⟩ := hu
    exact ⟨p, hp, ps, hps, hpse, by rw [← hru], by rw [← hru]⟩
  · intro u hu
    simp only [comment_s, itemRows, List.mem_flatMap, List.mem_map,
      List.mem_filter, decide_eq_true_eq] at hu
    obtain ⟨q, hq, ct, hct, t, ht, cs, ⟨hcs, hcse⟩, hru⟩ := hu
    exact ⟨q, hq, cs, hcs, hcse, by rw [← hru], by rw [← hru]⟩

/-- C2: for every group whose contributing items all have weight zero, the
stored aggregate sentiment is null rather than a division error, while
count (positive) and weight_sum (zero) are still stored, and the row is
written by aggregate_daily. -/
theorem C2_zero_weight_tiebreak (db : AggDB) (tk : List Char) (d : Int)
    (hne : groupRows db tk d ≠ [])
    (hz : ∀ u ∈ groupRows db tk d, u.w = 0) :
    (rolledRow db tk d).sentiment = none ∧
    (rolledRow db tk d).count = (groupRows db tk d).length ∧
    0 < (rolledRow db tk d).count ∧
    (rolledRow db tk d).weight_sum = 0 ∧
    rolledRow db tk d ∈ aggregate_daily db := by
  have hsum : ((groupRows db tk d).map (fun r => r.w)).sum = 0 := by
    apply List.sum_eq_zero
    intro x hx
    obtain ⟨u, hu, huw⟩ := List.mem_map.1 hx
    rw [← huw]
    exact hz u hu
  refine ⟨?_, rfl, ?_, hsum, rolledRow_mem_aggregate_daily db tk d hne⟩
  · simp only [rolledRow, hsum, if_pos]
  · exact List.length_pos.2 hne

/-- Witness for C1: the GME group with items of sentiment one (model score
present) and minus one half (lexicon fallback) and weights ten and two has
aggregate sentiment three quarters, count two and weight sum twelve. -/
theorem C1_aggregate_witness :
    (rolledRow exAggDB "GME".toList 0).sentiment = some (3 / 4) ∧
    (rolledRow exAggDB "GME".toList 0).count = 2 ∧
    (rolledRow exAggDB "GME".toList 0).weight_sum = 12 := by
  have w10 : max (((10 : Int) : ℚ)) 0 = 10 := by norm_num
  have w2 : max (((2 : Int) : ℚ)) 0 = 2 := by norm_num
  have hg : groupRows exAggDB "GME".toList 0 =
      [⟨"GME".toList, 0, 1, 10⟩, ⟨"GME".toList, 0, -1/2, 2⟩] := by
    simp [groupRows, union_s, post_s, comment_s, itemRows, exAggDB, utcDate,
      w10, w2]
  have h := C1_aggregate_weighted_mean exAggDB "GME".toList 0
    (by rw [hg]; simp) (by rw [hg]; norm_num)
  refine ⟨?_, ?_, ?_⟩
  · rw [h.1, hg]
    norm_num
  · rw [h.2.1, hg]
    rfl
  · rw [h.2.2.1, hg]
    norm_num

/-- Witness for C2: the same GME group with engagement scores zero and minus
three has both weights clamped to zero, so the stored aggregate sentiment is
null while count two and weight sum zero are stored. -/
theorem C2_zero_weight_witness :
    (rolledRow exAggDB0 "GME".toList 0).sentiment = none ∧
    (rolledRow exAggDB0 "GME".toList 0).count = 2 ∧
    (rolledRow exAggDB0 "GME".toList 0).weight_sum = 0 := by
  have w0 : max (((0 : Int) : ℚ)) 0 = 0 := by norm_num
  have wm3 : max (((-3 : Int) : ℚ)) 0 = 0 := by norm_num
  have hg : groupRows exAggDB0 "GME".toList 0 =
      [⟨"GME".toList, 0, 1, 0⟩, ⟨"GME".toList, 0, -1/2, 0⟩] := by
    simp [groupRows, union_s, post_s, comment_s, itemRows, exAggDB0, utcDate,
      w0, wm3]
  have h := C2_zero_weight_tiebreak exAggDB0 "GME".toList 0
    (by rw [hg]; simp)
    (by
      rw [hg]
      intro u hu
      simp only [List.mem_cons, List.not_mem_nil, or_false] at hu
      rcases hu with rfl | rfl <;> rfl)
  refine ⟨h.1, ?_, h.2.2.2.1⟩
  rw [h.2.1, hg]
  rfl

/-- C8: the registry output contains exactly the normalized symbols of rows
not flagged ETF, Test Issue or NextShares whose normalization is one to five
alphabetic characters; normalization upper-cases the stripped symbol and
truncates at the first occurrence of any separator in the fixed set; the
output listing is sorted and deduplicated; BRK.B normalizes to BRK; and a
row flagged ETF is excluded. -/
theorem C8_registry_build_spec (rows : List FeedRow) :
    (∀ s, s ∈ build rows ↔
      ∃ r ∈ rows, is_equity_issue r = true ∧ normalize_symbol r.symbol = s ∧
        1 ≤ s.length ∧ s.length ≤ 5 ∧ ∀ c ∈ s, c.isAlpha = true) ∧
    (∀ sym, normalize_symbol sym =
      ((pyStrip (sym.getD [])).map Char.toUpper).takeWhile
        (fun c => decide (c ≠ '.') && decide (c ≠ '-') && decide (c ≠ '/'))) ∧
    List.Sorted (· ≤ ·) (build rows) ∧
    (build rows).Nodup ∧
    normalize_symbol (some "BRK.B".toList) = "BRK".toList ∧
    build [⟨some "SPY".toList, some "Y".toList, some "N".toList,
      some "N".toList⟩] = [] := by
  refine ⟨?_, ?_, List.sorted_insertionSort _ _,
    (List.perm_insertionSort _ _).symm.nodup (List.nodup_dedup _),
    by decide, by decide⟩
  · intro s
    rw [build, List.mem_insertionSort]
    simp only [buildSymbolSet, List.mem_dedup, List.mem_filter, List.mem_map,
      acceptSymbol, pyIsAlpha, Bool.and_eq_true, decide_eq_true_eq,
      List.all_eq_true, Bool.not_eq_true', List.isEmpty_eq_false]
    constructor
    · rintro ⟨⟨a, ⟨ha, heq⟩, hn⟩, ⟨h1, h5⟩, -, hal⟩
      exact ⟨a, ha, heq, hn, h1, h5, hal⟩
    · rintro ⟨r, hr, heq, hn, h1, h5, hal⟩
      refine ⟨⟨r, ⟨hr, heq⟩, hn⟩, ⟨h1, h5⟩, ?_, hal⟩
      intro h0
      subst h0
      simp at h1
  · intro sym
    simp only [normalize_symbol]
    rw [List.takeWhile_takeWhile, List.takeWhile_takeWhile]
    congr 1
    funext c
    by_cases h1 : c = '.' <;> by_cases h2 : c = '-' <;> by_cases h3 : c = '/' <;>
      simp [h1, h2, h3]

/-- Witness for C8: a feed containing BRK.B (kept, normalized to BRK) and an
ETF-flagged SPY row (excluded) builds the one-symbol listing BRK. -/
theorem C8_registry_build_witness :
    "BRK".toList ∈ build
      [⟨some "BRK.B".toList, some "N".toList, none, none⟩,
       ⟨some "SPY".toList, some "Y".toList, some "N".toList,
        some "N".toList⟩] := by
  have h := (C8_registry_build_spec
    [⟨some "BRK.B".toList, some "N".toList, none, none⟩,
     ⟨some "SPY".toList, some "Y".toList, some "N".toList,
      some "N".toList⟩]).1 "BRK".toList
  exact h.2 ⟨⟨some "BRK.B".toList, some "N".toList, none, none⟩,
    by decide, by decide, by decide, by decide, by decide, by decide⟩

end RedditStock
